import Mathlib

/-!
Verification of the SEC SRO rulemaking feed generator (`scraper.py`).

The program is embedded shallowly:

* Strings are handled at the level of Unicode codepoints (`Char.toNat`);
  `str.lower()` and the regex classes `\w`, `\s`, `\b` are modelled on the
  ASCII range, where all of the program's fixed patterns live.
* The two fixed pattern families (`EXCLUDE_TITLE_PATTERNS`, `CRYPTO_PATTERNS`)
  only use literal characters, the word-boundary assertion `\b` and the
  whitespace repetition `\s+`; a small matcher for exactly those constructs
  models `re.search(pattern, text, re.IGNORECASE)`.
* `hashlib.md5` is implemented in full (RFC 1321) over `Nat` with explicit
  `% 2^32` reductions; `datetime.strptime` is modelled for the four format
  strings the program tries.
* Network fetching, BeautifulSoup HTML parsing and feedgen serialization are
  external collaborators: the parsed `<table>` rows are taken as structured
  input, and a feed entry is modelled as a record of the fields the program
  sets on it.
-/

/-- Codepoint of the lower-cased character, modelling Python `str.lower()`
on the ASCII range (`A`-`Z` map to `a`-`z`, everything else unchanged). -/
def lowerN (n : Nat) : Nat := if 65 ≤ n ∧ n ≤ 90 then n + 32 else n

/-- Membership in the regex class `\w` (ASCII range): letters, digits, `_`. -/
def isWordN (n : Nat) : Bool :=
  decide ((48 ≤ n ∧ n ≤ 57) ∨ (65 ≤ n ∧ n ≤ 90) ∨ (97 ≤ n ∧ n ≤ 122) ∨ n = 95)

/-- Membership in the regex class `\s` (ASCII range). -/
def isSpaceN (n : Nat) : Bool :=
  decide (n = 32 ∨ n = 9 ∨ n = 10 ∨ n = 11 ∨ n = 12 ∨ n = 13)

/-- Wordness (membership in `\w`) of an optional neighbouring character (`none` = string edge,
which counts as a non-word position for `\b`). -/
def isWordOpt : Option Nat → Bool
  | none => false
  | some n => isWordN n

/-- One token of the restricted regexes used by the program: a literal
character (matched case-insensitively, as under `re.IGNORECASE`), the
word-boundary assertion `\b`, or the whitespace repetition `\s+`. -/
inductive PatTok where
  | lit (c : Nat)
  | wb
  | ws1
deriving DecidableEq, Repr

/-- Backtracking helper for `\s+`: consume one or more whitespace characters,
after each one trying the continuation `k` (which receives the character just
consumed, as the new preceding character, and the remaining input). -/
def spaceChase (k : Nat → List Nat → Bool) : List Nat → Bool
  | [] => false
  | a :: s => isSpaceN a && (k a s || spaceChase k s)

/-- Match a token list against the input `s` anchored at the current
position; `prev` is the character just before that position (`none` at the
start of the string), needed for `\b`. -/
def matchToks : List PatTok → Option Nat → List Nat → Bool
  | [], _, _ => true
  | .wb :: ts, prev, s =>
      (isWordOpt prev != isWordOpt s.head?) && matchToks ts prev s
  | .lit _ :: _, _, [] => false
  | .lit c :: ts, _, a :: s => (lowerN a == lowerN c) && matchToks ts (some a) s
  | .ws1 :: ts, _, s => spaceChase (fun a s' => matchToks ts (some a) s') s

/-- Try to match starting at every position, left to right. -/
def searchFrom (toks : List PatTok) (prev : Option Nat) : List Nat → Bool
  | [] => matchToks toks prev []
  | a :: s => matchToks toks prev (a :: s) || searchFrom toks (some a) s

/-- Model of `re.search(pattern, s, re.IGNORECASE) is not None` for the restricted
pattern language. -/
def reSearch (toks : List PatTok) (s : List Nat) : Bool :=
  searchFrom toks none s

/-- Codepoints of a string. -/
def codes (s : String) : List Nat := s.data.map Char.toNat

/-- Model of `str.lower()` on codepoints. -/
def pyLowerCodes (l : List Nat) : List Nat := l.map lowerN

/-- Pattern consisting of the literal characters of `w`. -/
def litPat (w : String) : List PatTok := (codes w).map PatTok.lit

/-- The regex `\bw\b`. -/
def wordPat (w : String) : List PatTok := PatTok.wb :: (litPat w ++ [PatTok.wb])

/-- The list `EXCLUDE_TITLE_PATTERNS` of `scraper.py` (literal regexes). -/
def EXCLUDE_TITLE_PATTERNS : List (List PatTok) :=
  [litPat "Notice of Filing and Immediate Effectiveness",
   litPat "Filing and Immediate Effectiveness"]

/-- The regex `\bdigital\s+asset` from `CRYPTO_PATTERNS`. -/
def digitalAssetPat : List PatTok :=
  PatTok.wb :: (litPat "digital" ++ [PatTok.ws1] ++ litPat "asset")

/-- The list `CRYPTO_PATTERNS` of `scraper.py`, in source order. -/
def CRYPTO_PATTERNS : List (List PatTok) :=
  [wordPat "crypto", wordPat "cryptocurrency", wordPat "cryptocurrencies",
   wordPat "bitcoin", wordPat "ether", wordPat "ethereum", digitalAssetPat,
   wordPat "blockchain", wordPat "stablecoin", wordPat "token",
   wordPat "BTC", wordPat "ETH", wordPat "XRP", wordPat "SOL",
   wordPat "ADA", wordPat "DOGE"]

/-- Some administrative-notice pattern matches `s` (case-insensitively). -/
def matchesAdmin (s : String) : Bool :=
  EXCLUDE_TITLE_PATTERNS.any (fun p => reSearch p (codes s))

/-- Some topic (crypto) pattern matches the codepoint list `l`. -/
def matchesTopicCodes (l : List Nat) : Bool :=
  CRYPTO_PATTERNS.any (fun p => reSearch p l)

/-- Function `should_exclude(title, description)` of `scraper.py`: the administrative
patterns are searched in the title alone, the crypto patterns in the
lower-cased concatenation `f"{title} {description}"`. -/
def should_exclude (title : String) (description : String) : Bool :=
  let text := pyLowerCodes (codes (title ++ " " ++ description))
  matchesAdmin title || matchesTopicCodes text

/-! ## MD5 (`hashlib.md5`, RFC 1321), over `Nat` with explicit `% 2^32` -/

/-- The constant `2^32`, the word modulus of MD5. -/
def M32 : Nat := 4294967296

/-- All-ones 32-bit mask, used to model bitwise complement. -/
def mask32 : Nat := 4294967295

/-- Left-rotation of a 32-bit word by `s` bits. -/
def leftrot32 (x s : Nat) : Nat := (x * 2 ^ s + x / 2 ^ (32 - s)) % M32

/-- The MD5 sine-derived constant table `K` (RFC 1321). -/
def md5K : List Nat :=
  [0xd76aa478, 0xe8c7b756, 0x242070db, 0xc1bdceee, 0xf57c0faf, 0x4787c62a, 0xa8304613, 0xfd469501,
   0x698098d8, 0x8b44f7af, 0xffff5bb1, 0x895cd7be, 0x6b901122, 0xfd987193, 0xa679438e, 0x49b40821,
   0xf61e2562, 0xc040b340, 0x265e5a51, 0xe9b6c7aa, 0xd62f105d, 0x02441453, 0xd8a1e681, 0xe7d3fbc8,
   0x21e1cde6, 0xc33707d6, 0xf4d50d87, 0x455a14ed, 0xa9e3e905, 0xfcefa3f8, 0x676f02d9, 0x8d2a4c8a,
   0xfffa3942, 0x8771f681, 0x6d9d6122, 0xfde5380c, 0xa4beea44, 0x4bdecfa9, 0xf6bb4b60, 0xbebfbc70,
   0x289b7ec6, 0xeaa127fa, 0xd4ef3085, 0x04881d05, 0xd9d4d039, 0xe6db99e5, 0x1fa27cf8, 0xc4ac5665,
   0xf4292244, 0x432aff97, 0xab9423a7, 0xfc93a039, 0x655b59c3, 0x8f0ccc92, 0xffeff47d, 0x85845dd1,
   0x6fa87e4f, 0xfe2ce6e0, 0xa3014314, 0x4e0811a1, 0xf7537e82, 0xbd3af235, 0x2ad7d2bb, 0xeb86d391]

/-- The MD5 per-round shift amounts. -/
def md5S : List Nat :=
  [7, 12, 17, 22, 7, 12, 17, 22, 7, 12, 17, 22, 7, 12, 17, 22,
   5, 9, 14, 20, 5, 9, 14, 20, 5, 9, 14, 20, 5, 9, 14, 20,
   4, 11, 16, 23, 4, 11, 16, 23, 4, 11, 16, 23, 4, 11, 16, 23,
   6, 10, 15, 21, 6, 10, 15, 21, 6, 10, 15, 21, 6, 10, 15, 21]

/-- MD5 internal state: four 32-bit words. -/
structure MD5St where
  a : Nat
  b : Nat
  c : Nat
  d : Nat
deriving Repr, DecidableEq

/-- The round function F/G/H/I, selected by the operation index `i`. -/
def md5F (i b c d : Nat) : Nat :=
  if i < 16 then (b &&& c) ||| ((b ^^^ mask32) &&& d)
  else if i < 32 then (d &&& b) ||| ((d ^^^ mask32) &&& c)
  else if i < 48 then b ^^^ c ^^^ d
  else c ^^^ (b ||| (d ^^^ mask32))

/-- The message-word index used at operation `i`. -/
def md5G (i : Nat) : Nat :=
  if i < 16 then i
  else if i < 32 then (5 * i + 1) % 16
  else if i < 48 then (3 * i + 5) % 16
  else (7 * i) % 16

/-- One of the 64 MD5 operations, on state `st` with message words `M`. -/
def md5Step (M : List Nat) (st : MD5St) (i : Nat) : MD5St :=
  let f := md5F i st.b st.c st.d
  let tmp := (st.a + f + md5K.getD i 0 + M.getD (md5G i) 0) % M32
  { a := st.d, b := (st.b + leftrot32 tmp (md5S.getD i 0)) % M32, c := st.b, d := st.c }

/-- Little-endian decoding of a byte list into 32-bit words. -/
def bytesToWordsLE : List Nat → List Nat
  | b0 :: b1 :: b2 :: b3 :: rest =>
      (b0 + 256 * b1 + 65536 * b2 + 16777216 * b3) :: bytesToWordsLE rest
  | _ => []

/-- Process one 64-byte chunk. -/
def md5Chunk (st : MD5St) (chunk : List Nat) : MD5St :=
  let M := bytesToWordsLE chunk
  let r := (List.range 64).foldl (md5Step M) st
  { a := (st.a + r.a) % M32, b := (st.b + r.b) % M32,
    c := (st.c + r.c) % M32, d := (st.d + r.d) % M32 }

/-- Split a byte list into 64-byte chunks; `fuel` only bounds the recursion
depth (each step removes at least one byte, so `l.length` steps suffice). -/
def chunks64Go : Nat → List Nat → List (List Nat)
  | _, [] => []
  | 0, _ :: _ => []
  | fuel + 1, a :: rest => ((a :: rest).take 64) :: chunks64Go fuel ((a :: rest).drop 64)

/-- Split a byte list into 64-byte chunks. -/
def chunks64 (l : List Nat) : List (List Nat) := chunks64Go l.length l

/-- Little-endian encoding of a 32-bit word as four bytes. -/
def wordBytesLE (w : Nat) : List Nat :=
  [w % 256, w / 256 % 256, w / 65536 % 256, w / 16777216 % 256]

/-- MD5 padding: `0x80`, zeros to 56 mod 64, then the bit length as a
64-bit little-endian quantity. -/
def md5Pad (msg : List Nat) : List Nat :=
  let len := msg.length
  let k := (119 - len % 64) % 64
  msg ++ [128] ++ List.replicate k 0 ++
    wordBytesLE ((8 * len) % M32) ++ wordBytesLE (8 * len / M32 % M32)

/-- MD5 initial state. -/
def md5Init : MD5St := ⟨0x67452301, 0xefcdab89, 0x98badcfe, 0x10325476⟩

/-- The 16-byte MD5 digest of a byte list. -/
def md5Bytes (msg : List Nat) : List Nat :=
  let fin := (chunks64 (md5Pad msg)).foldl md5Chunk md5Init
  wordBytesLE fin.a ++ wordBytesLE fin.b ++ wordBytesLE fin.c ++ wordBytesLE fin.d

/-- Lower-case hex digit. -/
def hexDigit (n : Nat) : Char := "0123456789abcdef".data.getD n '0'

/-- Two-digit hex rendering of a byte. -/
def byteHex (b : Nat) : List Char := [hexDigit (b / 16), hexDigit (b % 16)]

/-- UTF-8 encoding of one character (modelling Python `str.encode()`). -/
def utf8Bytes (c : Char) : List Nat :=
  let n := c.toNat
  if n < 128 then [n]
  else if n < 2048 then [192 + n / 64, 128 + n % 64]
  else if n < 65536 then [224 + n / 4096, 128 + n / 64 % 64, 128 + n % 64]
  else [240 + n / 262144, 128 + n / 4096 % 64, 128 + n / 64 % 64, 128 + n % 64]

/-- Model of `hashlib.md5(s.encode()).hexdigest()`, as a character list. -/
def md5HexChars (s : String) : List Char :=
  (md5Bytes (s.data.flatMap utf8Bytes)).flatMap byteHex

/-! ## The Filing record and the pipeline stages -/

/-- The record `SROFiling` of `scraper.py` (a `NamedTuple` of five strings). -/
structure SROFiling where
  title : String
  url : String
  date : String
  description : String
  source : String
deriving DecidableEq, Repr, Inhabited

/-- The `id` property of `SROFiling`:
`hashlib.md5(self.url.encode()).hexdigest()[:12]`. -/
def SROFiling.id (f : SROFiling) : String :=
  String.mk ((md5HexChars f.url).take 12)

/-- Function `filter_filings` of `scraper.py` (keeps records that are not excluded;
the excluded count it prints is console output only). -/
def filter_filings (filings : List SROFiling) : List SROFiling :=
  filings.filter (fun f => !should_exclude f.title f.description)

/-- Loop body of `deduplicate_filings`, with the `seen_urls` set modelled as
a list used only through membership. -/
def dedupAux (seen : List String) : List SROFiling → List SROFiling
  | [] => []
  | f :: rest =>
      if f.url ∈ seen then dedupAux seen rest
      else f :: dedupAux (f.url :: seen) rest

/-- Function `deduplicate_filings` of `scraper.py`. -/
def deduplicate_filings (filings : List SROFiling) : List SROFiling :=
  dedupAux [] filings

/-! ## Normalization of one parsed table row (`parse_sro_page`)

BeautifulSoup is an external collaborator, so the parsed HTML is taken as
structured input: a page is the list of rows matched by the selector
`table tbody tr`, a row is its list of `td` cells, and a cell carries the
pieces of it the program reads: the first `a[href]` anchor (if any), its
stripped text, and its list of direct children. -/

/-- Python whitespace, as stripped by `str.strip()` (ASCII range). -/
def isPySpace (c : Char) : Bool :=
  c = ' ' || c = '\t' || c = '\n' || c = '\r' || c = '\x0c' || c = '\x0b'

/-- Model of `str.strip()`: remove leading and trailing whitespace. -/
def pyStrip (s : String) : String :=
  String.mk (((s.data.dropWhile isPySpace).reverse.dropWhile isPySpace).reverse)

/-- The Python slice `s[:n]` on a string. -/
def pyTake (s : String) (n : Nat) : String := String.mk (s.data.take n)

/-- Loop of `str.replace`: replace every non-overlapping occurrence of
`needle` (assumed non-empty) left to right. `fuel` only bounds the recursion
depth; every step consumes at least one character of the haystack, so the
haystack length suffices. -/
def replaceGo (needle repl : List Char) : Nat → List Char → List Char
  | _, [] => []
  | 0, l => l
  | fuel + 1, a :: rest =>
      if needle.isPrefixOf (a :: rest) then
        repl ++ replaceGo needle repl fuel ((a :: rest).drop needle.length)
      else
        a :: replaceGo needle repl fuel rest

/-- Model of `str.replace(needle, repl)` for a non-empty `needle`. -/
def pyReplace (s needle repl : String) : String :=
  if needle.data = [] then s
  else String.mk (replaceGo needle.data repl.data s.data.length s.data)

/-- An `a[href]` element: its stripped text and its `href` attribute. -/
structure Anchor where
  text : String
  href : String
deriving DecidableEq, Repr

/-- A direct child of the details cell: a tag (with its name and text), or a
bare text node. -/
inductive CellChild where
  | elem (name : String) (text : String)
  | textNode (s : String)
deriving DecidableEq, Repr

/-- One `td` cell, carrying exactly what the program reads from it. -/
structure Cell where
  anchor : Option Anchor
  text : String
  children : List CellChild
deriving DecidableEq, Repr, Inhabited

/-- One `tr` row. -/
structure Row where
  cells : List Cell
deriving DecidableEq, Repr, Inhabited

/-- Substring test (Python's `in` on strings), used for the
`'Submit a Comment' in child.get_text()` check. -/
def containsSub (needle hay : List Char) : Bool :=
  match hay with
  | [] => needle.isPrefixOf []
  | _ :: rest => needle.isPrefixOf hay || containsSub needle rest

/-- The details-extraction loop over the children of cell 4: stop at the
first `<strong>` (the "Comments Due:" marker), skip every other tag child
(the `Submit a Comment` links are skipped explicitly, any other tag adds
nothing either), and accumulate the bare text nodes. -/
def detailsText : List CellChild → String
  | [] => ""
  | .elem name text :: rest =>
      if name = "strong" then ""
      else if name = "a" ∧ containsSub "Submit a Comment".data text.data then
        detailsText rest
      else detailsText rest
  | .textNode s :: rest => s ++ detailsText rest

/-- The constant `SEC_BASE_URL` of `scraper.py`. -/
def SEC_BASE_URL : String := "https://www.sec.gov"

/-- Model of `str.startswith(pre)`. -/
def pyStartsWith (s pre : String) : Bool := pre.data.isPrefixOf s.data

/-- Link resolution of `parse_sro_page` (lines 139-141): prepend the fixed
base origin unless the href already starts with `"http"`. -/
def resolveHref (href : String) : String :=
  if pyStartsWith href "http" then href else SEC_BASE_URL ++ href

/-- The per-row body of `parse_sro_page`: `none` models the `continue`
branches (fewer than 5 cells, or no `a[href]` in cell 0). -/
def parseRow (source : String) (row : Row) : Option SROFiling :=
  match row.cells with
  | c0 :: c1 :: c2 :: c3 :: c4 :: _ =>
      match c0.anchor with
      | none => none
      | some link =>
          let release_number := pyStrip (pyReplace link.text "External." "")
          let pdf_href := resolveHref link.href
          let date_str := c1.text
          let file_number := c2.text
          let sro_org := c3.text
          let details_text := pyStrip (detailsText c4.children)
          let title := "[" ++ release_number ++ "] " ++ pyTake details_text 200 ++
            (if 200 < details_text.length then "..." else "")
          let full_description := sro_org ++ " | " ++ file_number ++ " | " ++ details_text
          some { title := title, url := pdf_href, date := date_str,
                 description := full_description, source := source }
  | _ => none

/-- Function `parse_sro_page` of `scraper.py`, over the parsed rows. -/
def parse_sro_page (rows : List Row) (source : String) : List SROFiling :=
  rows.filterMap (parseRow source)

/-! ## `datetime.strptime`, modelled for the format directives the program
uses: `%B` `%b` `%d` `%m` `%Y` plus literal characters.  As in CPython's
`_strptime`, matching is case-insensitive, whitespace in the format matches
one or more whitespace characters (`\s+`), the whole input must be consumed,
and the parsed fields must form a valid calendar date. -/

/-- A parsed calendar date (the time part is always midnight here). -/
structure PDate where
  year : Nat
  month : Nat
  day : Nat
deriving DecidableEq, Repr

/-- Full month names, for `%B`. -/
def MONTHS_FULL : List String :=
  ["January", "February", "March", "April", "May", "June", "July",
   "August", "September", "October", "November", "December"]

/-- Abbreviated month names, for `%b`. -/
def MONTHS_ABBR : List String :=
  ["Jan", "Feb", "Mar", "Apr", "May", "Jun", "Jul", "Aug", "Sep", "Oct",
   "Nov", "Dec"]

/-- Case-insensitive literal match of `w` at the head of `s`; returns the
rest of `s` on success. -/
def matchCI : List Char → List Char → Option (List Char)
  | [], s => some s
  | _ :: _, [] => none
  | w :: ws, a :: s => if a.toLower = w.toLower then matchCI ws s else none

/-- Match one of `names` (1-based result index), first match wins. -/
def parseMonthName (names : List String) (s : List Char) (i : Nat) :
    Option (Nat × List Char) :=
  match names with
  | [] => none
  | w :: ws =>
      match matchCI w.data s with
      | some rest => some (i, rest)
      | none => parseMonthName ws s (i + 1)

/-- Digit value of an ASCII character, if any. -/
def digitVal (c : Char) : Option Nat :=
  if '0' ≤ c ∧ c ≤ '9' then some (c.toNat - 48) else none

/-- The `%d` directive, following CPython's regex
`3[0-1]|[1-2]\d|0[1-9]|[1-9]| [1-9]` (ordered alternation). -/
def parseDay : List Char → Option (Nat × List Char)
  | a :: b :: rest =>
      match digitVal a, digitVal b with
      | some x, some y =>
          if x = 3 ∧ y ≤ 1 then some (30 + y, rest)
          else if 1 ≤ x ∧ x ≤ 2 then some (10 * x + y, rest)
          else if x = 0 ∧ 1 ≤ y then some (y, rest)
          else if 1 ≤ x then some (x, b :: rest)
          else none
      | some x, none => if 1 ≤ x then some (x, b :: rest) else none
      | none, some y => if a = ' ' ∧ 1 ≤ y then some (y, rest) else none
      | none, none => none
  | [a] =>
      match digitVal a with
      | some x => if 1 ≤ x then some (x, []) else none
      | none => none
  | [] => none

/-- The `%m` directive, following CPython's regex `1[0-2]|0[1-9]|[1-9]`. -/
def parseMonthNum : List Char → Option (Nat × List Char)
  | a :: b :: rest =>
      match digitVal a, digitVal b with
      | some x, some y =>
          if x = 1 ∧ y ≤ 2 then some (10 + y, rest)
          else if x = 0 ∧ 1 ≤ y then some (y, rest)
          else if 1 ≤ x then some (x, b :: rest)
          else none
      | some x, _ => if 1 ≤ x then some (x, b :: rest) else none
      | none, _ => none
  | [a] =>
      match digitVal a with
      | some x => if 1 ≤ x then some (x, []) else none
      | none => none
  | [] => none

/-- The `%Y` directive: exactly four digits. -/
def parseYear4 : List Char → Option (Nat × List Char)
  | a :: b :: c :: d :: rest =>
      match digitVal a, digitVal b, digitVal c, digitVal d with
      | some w, some x, some y, some z => some (1000 * w + 100 * x + 10 * y + z, rest)
      | _, _, _, _ => none
  | _ => none

/-- Accumulated directive values (missing fields get CPython's defaults). -/
structure DParts where
  year : Option Nat
  month : Option Nat
  day : Option Nat
deriving DecidableEq, Repr

mutual

/-- The format-matching loop: walk the format and the input together.
`fuel` only bounds the recursion depth; every step consumes at least one
character of the format or of the input, so the sum of their lengths
suffices. -/
def strpGo : Nat → List Char → DParts → List Char → Option DParts
  | 0, _, _, _ => none
  | _ + 1, [], acc, s => if s = [] then some acc else none
  | fuel + 1, '%' :: 'B' :: fmt, acc, s =>
      match parseMonthName MONTHS_FULL s 1 with
      | some (m, s') => strpGo fuel fmt { acc with month := some m } s'
      | none => none
  | fuel + 1, '%' :: 'b' :: fmt, acc, s =>
      match parseMonthName MONTHS_ABBR s 1 with
      | some (m, s') => strpGo fuel fmt { acc with month := some m } s'
      | none => none
  | fuel + 1, '%' :: 'd' :: fmt, acc, s =>
      match parseDay s with
      | some (d, s') => strpGo fuel fmt { acc with day := some d } s'
      | none => none
  | fuel + 1, '%' :: 'm' :: fmt, acc, s =>
      match parseMonthNum s with
      | some (m, s') => strpGo fuel fmt { acc with month := some m } s'
      | none => none
  | fuel + 1, '%' :: 'Y' :: fmt, acc, s =>
      match parseYear4 s with
      | some (y, s') => strpGo fuel fmt { acc with year := some y } s'
      | none => none
  | fuel + 1, c :: fmt, acc, s =>
      if isPySpace c then strpSpaces fuel fmt acc s
      else
        match s with
        | [] => none
        | a :: s' => if a.toLower = c.toLower then strpGo fuel fmt acc s' else none

/-- Whitespace in the format matches `\s+`: consume one or more whitespace
characters, trying the rest of the format after each. -/
def strpSpaces : Nat → List Char → DParts → List Char → Option DParts
  | 0, _, _, _ => none
  | _ + 1, _, _, [] => none
  | fuel + 1, fmt, acc, a :: s =>
      if isPySpace a then
        match strpGo fuel fmt acc s with
        | some r => some r
        | none => strpSpaces fuel fmt acc s
      else none

end

/-- Number of days in a month (proleptic Gregorian), for the validity check
`datetime.date` performs. -/
def daysInMonth (y m : Nat) : Nat :=
  if m = 2 then
    if y % 4 = 0 ∧ (y % 100 ≠ 0 ∨ y % 400 = 0) then 29 else 28
  else if m = 4 ∨ m = 6 ∨ m = 9 ∨ m = 11 then 30
  else 31

/-- Model of `datetime.strptime(s, fmt)`, restricted to the directives above;
missing fields take CPython's defaults (1900-01-01), and the result must be
a valid `datetime.date`. -/
def strptime (fmt s : String) : Option PDate :=
  match strpGo (fmt.data.length + s.data.length + 1) fmt.data ⟨none, none, none⟩ s.data with
  | none => none
  | some acc =>
      let y := acc.year.getD 1900
      let m := acc.month.getD 1
      let d := acc.day.getD 1
      if 1 ≤ y ∧ y ≤ 9999 ∧ 1 ≤ m ∧ m ≤ 12 ∧ 1 ≤ d ∧ d ≤ daysInMonth y m then
        some ⟨y, m, d⟩
      else none

/-- The ordered candidate formats tried by `generate_feed`. -/
def DATE_FORMATS : List String :=
  ["%B %d, %Y", "%Y-%m-%d", "%m/%d/%Y", "%b %d, %Y"]

/-- The date-parsing loop of `generate_feed`: try each format in order and
keep the first success (`break`); `none` when every format raises. -/
def parseFilingDate (s : String) : Option PDate :=
  DATE_FORMATS.findSome? (fun fmt => strptime fmt s)

/-! ## Feed emission (`generate_feed`)

feedgen is an external collaborator; a feed entry is modelled as the record
of the fields the program sets on it, and the JSON snapshot as a record with
the same shape as the dumped object. -/

/-- Model of `str.title()` on the ASCII range: upper-case every letter that follows a
non-letter, lower-case every other letter. -/
def pyTitleGo (prevAlpha : Bool) : List Char → List Char
  | [] => []
  | c :: rest =>
      (if c.isAlpha then (if prevAlpha then c.toLower else c.toUpper) else c) ::
        pyTitleGo c.isAlpha rest

/-- Model of `str.title()`. -/
def pyTitleCase (s : String) : String := String.mk (pyTitleGo false s.data)

/-- Model of `str.replace('-', ' ')` (single-character replacement). -/
def dashToSpace (s : String) : String :=
  String.mk (s.data.map (fun c => if c = '-' then ' ' else c))

/-- The `desc_parts` list built for a feed entry: a formatted source label,
a date line and the description, each included only when the field is
non-empty (Python truthiness on strings). -/
def descParts (f : SROFiling) : List String :=
  (if f.source ≠ "" then ["Source: " ++ pyTitleCase (dashToSpace f.source)] else []) ++
  (if f.date ≠ "" then ["Date: " ++ f.date] else []) ++
  (if f.description ≠ "" then [f.description] else [])

/-- A feed entry, as the fields `generate_feed` sets on `fg.add_entry()`;
`published`/`updated` stay `none` when the date is absent or matches no
candidate format. -/
structure FeedEntry where
  entryId : String
  title : String
  link : String
  description : String
  published : Option PDate
  updated : Option PDate
deriving DecidableEq, Repr

/-- The per-filing body of the entry loop in `generate_feed`. -/
def makeEntry (f : SROFiling) : FeedEntry :=
  { entryId := f.url
    title := f.title
    link := f.url
    description :=
      if descParts f ≠ [] then String.intercalate "\n" (descParts f) else f.title
    published := if f.date ≠ "" then parseFilingDate f.date else none
    updated := if f.date ≠ "" then parseFilingDate f.date else none }

/-- The entries of the generated feed, in input order. -/
def feedEntries (filings : List SROFiling) : List FeedEntry :=
  filings.map makeEntry

/-- One element of the `filings` array in `filings.json`. -/
structure FilingRecord where
  recId : String
  title : String
  url : String
  date : String
  description : String
  source : String
deriving DecidableEq, Repr

/-- The dictionary built for one filing in the JSON snapshot. -/
def filingRecord (f : SROFiling) : FilingRecord :=
  { recId := f.id, title := f.title, url := f.url, date := f.date,
    description := f.description, source := f.source }

/-- The JSON snapshot object `{updated, count, filings}`; `updated` is the
wall-clock timestamp, taken as a parameter. -/
structure Snapshot where
  updated : String
  count : Nat
  filings : List FilingRecord
deriving Repr

/-- The snapshot written by `generate_feed`: `count` is the length of the
`filings_data` list. -/
def snapshotOf (updated : String) (filings : List SROFiling) : Snapshot :=
  let filings_data := filings.map filingRecord
  { updated := updated, count := filings_data.length, filings := filings_data }

/-- The post-scrape pipeline of `main`: deduplicate, then filter. -/
def processFilings (raw : List SROFiling) : List SROFiling :=
  filter_filings (deduplicate_filings raw)

/-! ## Specification-side definitions and test fixtures -/

/-- Specification wording of deduplication ("the subsequence with only the
first occurrence of each distinct `url`, preserving original relative
order"): keep the head, delete every later record with the same `url`,
recurse. To be compared with `deduplicate_filings`. -/
def keepFirstByUrl : List SROFiling → List SROFiling
  | [] => []
  | f :: rest => f :: keepFirstByUrl (rest.filter (fun g => !(g.url == f.url)))
termination_by l => l.length
decreasing_by
  simp only [List.length_cons]
  exact Nat.lt_succ_of_le (List.length_filter_le _ _)

/-- Whether the first cell of a row contains an `a[href]` anchor. -/
def rowHasLink (r : Row) : Bool :=
  match r.cells with
  | c :: _ => c.anchor.isSome
  | [] => false

/-- A five-cell table row assembled from its fields (anchor text and href,
date, file number, organization, details children), plus extra cells. -/
def mkRow5 (atext ahref dateS fileno org : String) (children : List CellChild)
    (rest : List Cell) : Row :=
  ⟨⟨some ⟨atext, ahref⟩, "", []⟩ :: ⟨none, dateS, []⟩ :: ⟨none, fileno, []⟩ ::
   ⟨none, org, []⟩ :: ⟨none, "", children⟩ :: rest⟩

/-- End-to-end fixture: ten raw filings in which exactly two share a URL
(the first and the last) and exactly three of the nine post-deduplication
records match exclusion patterns (one administrative notice, one crypto
title, one crypto description); the duplicate is not among the excluded. -/
def scenarioRaw : List SROFiling :=
  [⟨"[34-100001] Proposed rule change to amend fee schedules",
    "https://www.sec.gov/files/rules/sro/r1.pdf", "Dec 01, 2025",
    "NYSE | SR-NYSE-2025-001 | Fee schedule amendment", "national-securities-exchanges"⟩,
   ⟨"[34-100002] Proposed rule change regarding listing standards",
    "https://www.sec.gov/files/rules/sro/r2.pdf", "Dec 02, 2025",
    "NYSE | SR-NYSE-2025-002 | Listing standards", "national-securities-exchanges"⟩,
   ⟨"Notice of Filing and Immediate Effectiveness of a Proposed Rule Change",
    "https://www.sec.gov/files/rules/sro/r3.pdf", "Dec 03, 2025",
    "FINRA | SR-FINRA-2025-003 | Procedural notice", "finra"⟩,
   ⟨"[34-100004] Order approving proposed rule change",
    "https://www.sec.gov/files/rules/sro/r4.pdf", "Dec 04, 2025",
    "FINRA | SR-FINRA-2025-004 | Approval order", "finra"⟩,
   ⟨"[34-100005] Listing of bitcoin exchange-traded products",
    "https://www.sec.gov/files/rules/sro/r5.pdf", "Dec 05, 2025",
    "NYSE | SR-NYSE-2025-005 | Exchange-traded products", "national-securities-exchanges"⟩,
   ⟨"[34-100006] Amendment to margin requirements",
    "https://www.sec.gov/files/rules/sro/r6.pdf", "Dec 06, 2025",
    "FINRA | SR-FINRA-2025-006 | Margin requirements", "finra"⟩,
   ⟨"[34-100007] Proposed rule change on trading platforms",
    "https://www.sec.gov/files/rules/sro/r7.pdf", "Dec 07, 2025",
    "NYSE | SR-NYSE-2025-007 | Platform for crypto asset trading", "national-securities-exchanges"⟩,
   ⟨"[34-100008] Rule change on options fees",
    "https://www.sec.gov/files/rules/sro/r8.pdf", "Dec 08, 2025",
    "NYSE | SR-NYSE-2025-008 | Options fees", "national-securities-exchanges"⟩,
   ⟨"[34-100009] Extension of comment period",
    "https://www.sec.gov/files/rules/sro/r9.pdf", "Dec 09, 2025",
    "FINRA | SR-FINRA-2025-009 | Comment period extension", "finra"⟩,
   ⟨"[34-100010] Duplicate notice of the fee schedule amendment",
    "https://www.sec.gov/files/rules/sro/r1.pdf", "Dec 10, 2025",
    "NYSE | SR-NYSE-2025-001 | Fee schedule amendment", "national-securities-exchanges"⟩]

/-! ## Reference vectors for the MD5 embedding -/

set_option maxRecDepth 8192 in
/-- Sanity anchor for the embedding: the implementation reproduces the
standard MD5 test vectors (RFC 1321 appendix). -/
theorem md5_reference_vectors :
    String.mk (md5HexChars "") = "d41d8cd98f00b204e9800998ecf8427e" ∧
    String.mk (md5HexChars "abc") = "900150983cd24fb0d6963f7d28e17f72" := by
  constructor <;> decide

/-! ## Lemmas: the matcher is invariant under `str.lower()` -/

theorem lowerN_lowerN (n : Nat) : lowerN (lowerN n) = lowerN n := by
  unfold lowerN
  split
  · rw [if_neg (by omega)]
  · rfl

theorem isWordN_lowerN (n : Nat) : isWordN (lowerN n) = isWordN n := by
  unfold isWordN lowerN
  split
  · rw [decide_eq_decide]; omega
  · rfl

theorem isSpaceN_lowerN (n : Nat) : isSpaceN (lowerN n) = isSpaceN n := by
  unfold isSpaceN lowerN
  split
  · rw [decide_eq_decide]; omega
  · rfl

theorem isWordOpt_map_lowerN (o : Option Nat) :
    isWordOpt (o.map lowerN) = isWordOpt o := by
  cases o <;> simp [isWordOpt, isWordN_lowerN]

/-- Lower-casing the input (and the recorded preceding character) does not
change anchored matching: literals are compared case-insensitively, and the
`\w`/`\s` classes are invariant under `str.lower()`. -/
theorem matchToks_map_lowerN (toks : List PatTok) :
    ∀ (prev : Option Nat) (s : List Nat),
      matchToks toks (prev.map lowerN) (s.map lowerN) = matchToks toks prev s := by
  induction toks with
  | nil => intro prev s; rfl
  | cons t ts ih =>
    intro prev s
    cases t with
    | wb =>
        show ((isWordOpt (prev.map lowerN) != isWordOpt (s.map lowerN).head?) &&
            matchToks ts (prev.map lowerN) (s.map lowerN)) = _
        rw [List.head?_map, isWordOpt_map_lowerN, isWordOpt_map_lowerN, ih prev s]
        rfl
    | lit c =>
        cases s with
        | nil => rfl
        | cons a s =>
            show ((lowerN (lowerN a) == lowerN c) &&
                matchToks ts (some (lowerN a)) (s.map lowerN)) = _
            rw [lowerN_lowerN]
            have h1 : some (lowerN a) = (some a).map lowerN := rfl
            rw [h1, ih (some a) s]
            rfl
    | ws1 =>
        show spaceChase (fun a s' => matchToks ts (some a) s') (s.map lowerN) = _
        induction s with
        | nil => rfl
        | cons a s ihs =>
            show (isSpaceN (lowerN a) &&
                (matchToks ts (some (lowerN a)) (s.map lowerN) ||
                 spaceChase _ (s.map lowerN))) = _
            rw [isSpaceN_lowerN]
            have h1 : some (lowerN a) = (some a).map lowerN := rfl
            rw [h1, ih (some a) s, ihs]
            rfl

theorem searchFrom_map_lowerN (toks : List PatTok) :
    ∀ (prev : Option Nat) (s : List Nat),
      searchFrom toks (prev.map lowerN) (s.map lowerN) = searchFrom toks prev s := by
  intro prev s
  induction s generalizing prev with
  | nil => show matchToks toks (prev.map lowerN) [] = _
           exact matchToks_map_lowerN toks prev []
  | cons a s ih =>
      show (matchToks toks (prev.map lowerN) ((a :: s).map lowerN) ||
          searchFrom toks (some (lowerN a)) (s.map lowerN)) = _
      rw [matchToks_map_lowerN toks prev (a :: s)]
      have h1 : some (lowerN a) = (some a).map lowerN := rfl
      rw [h1, ih (some a)]
      rfl

/-- Searching (`re.search` with `re.IGNORECASE`) gives the same answer on the
lower-cased input. -/
theorem reSearch_lowerCodes (toks : List PatTok) (s : List Nat) :
    reSearch toks (pyLowerCodes s) = reSearch toks s :=
  searchFrom_map_lowerN toks none s

theorem any_congr_fun {α : Type} {f g : α → Bool} (h : ∀ a, f a = g a) :
    ∀ l : List α, l.any f = l.any g := by
  intro l
  induction l with
  | nil => rfl
  | cons a l ih => simp only [List.any_cons, h a, ih]

theorem matchesTopicCodes_lowerCodes (l : List Nat) :
    matchesTopicCodes (pyLowerCodes l) = matchesTopicCodes l := by
  unfold matchesTopicCodes
  exact any_congr_fun (fun p => reSearch_lowerCodes p l) CRYPTO_PATTERNS

/-! ## C1 -/

/-- C1: `should_exclude` returns `true` exactly when an administrative
pattern matches the title (case-insensitively, description not consulted)
or a topic pattern matches the concatenation of title and description;
in particular the all-caps administrative notice is excluded.  The decision
is a function of the `(title, description)` pair by construction. -/
theorem C1_should_exclude_characterization (t d : String) :
    (should_exclude t d = true ↔
      (matchesAdmin t = true ∨ matchesTopicCodes (codes (t ++ " " ++ d)) = true)) ∧
    should_exclude "NOTICE OF FILING AND IMMEDIATE EFFECTIVENESS" "" = true := by
  refine ⟨?_, by decide⟩
  show (matchesAdmin t || matchesTopicCodes (pyLowerCodes (codes (t ++ " " ++ d)))) = true ↔ _
  rw [matchesTopicCodes_lowerCodes, Bool.or_eq_true]

/-! ## C2: deduplication -/

theorem dedupAux_sublist (l : List SROFiling) :
    ∀ seen : List String, (dedupAux seen l).Sublist l := by
  induction l with
  | nil => intro seen; exact List.Sublist.refl []
  | cons f rest ih =>
      intro seen
      unfold dedupAux
      split
      · exact (ih seen).cons f
      · exact (ih (f.url :: seen)).cons₂ f

theorem dedupAux_cons (seen : List String) (f : SROFiling)
    (rest : List SROFiling) :
    dedupAux seen (f :: rest) =
      if f.url ∈ seen then dedupAux seen rest
      else f :: dedupAux (f.url :: seen) rest := rfl

theorem dedupAux_cons_mem {seen : List String} {f : SROFiling}
    {rest : List SROFiling} (h : f.url ∈ seen) :
    dedupAux seen (f :: rest) = dedupAux seen rest := by
  rw [dedupAux_cons, if_pos h]

theorem dedupAux_cons_not_mem {seen : List String} {f : SROFiling}
    {rest : List SROFiling} (h : f.url ∉ seen) :
    dedupAux seen (f :: rest) = f :: dedupAux (f.url :: seen) rest := by
  rw [dedupAux_cons, if_neg h]

theorem dedupAux_idem (l : List SROFiling) :
    ∀ seen : List String, dedupAux seen (dedupAux seen l) = dedupAux seen l := by
  induction l with
  | nil => intro seen; rfl
  | cons f rest ih =>
      intro seen
      by_cases h : f.url ∈ seen
      · rw [dedupAux_cons_mem h]
        exact ih seen
      · rw [dedupAux_cons_not_mem h, dedupAux_cons_not_mem h, ih (f.url :: seen)]

theorem dedupAux_congr (l : List SROFiling) :
    ∀ {seen seen' : List String}, (∀ u, u ∈ seen ↔ u ∈ seen') →
      dedupAux seen l = dedupAux seen' l := by
  induction l with
  | nil => intro seen seen' _; rfl
  | cons f rest ih =>
      intro seen seen' h
      unfold dedupAux
      by_cases hm : f.url ∈ seen
      · rw [if_pos hm, if_pos ((h f.url).mp hm)]
        exact ih h
      · rw [if_neg hm, if_neg (fun c => hm ((h f.url).mpr c))]
        have h' : ∀ u, u ∈ f.url :: seen ↔ u ∈ f.url :: seen' := by
          intro u
          simp only [List.mem_cons, h u]
        rw [ih h']

theorem dedupAux_cons_filter (u : String) (l : List SROFiling) :
    ∀ seen : List String,
      dedupAux (u :: seen) l = dedupAux seen (l.filter (fun g => !(g.url == u))) := by
  induction l with
  | nil => intro seen; rfl
  | cons f rest ih =>
      intro seen
      by_cases hu : f.url = u
      · rw [List.filter_cons_of_neg (by simp [hu]),
            dedupAux_cons_mem (by simp [hu]), ih seen]
      · rw [List.filter_cons_of_pos (by simp [hu])]
        by_cases hs : f.url ∈ seen
        · rw [dedupAux_cons_mem (List.mem_cons_of_mem u hs),
              dedupAux_cons_mem hs, ih seen]
        · rw [dedupAux_cons_not_mem (by simp [hu, hs]), dedupAux_cons_not_mem hs]
          have swap : dedupAux (f.url :: u :: seen) rest =
              dedupAux (u :: f.url :: seen) rest := by
            apply dedupAux_congr
            intro v
            simp only [List.mem_cons]
            tauto
          rw [swap, ih (f.url :: seen)]

theorem dedup_eq_keepFirst_bounded :
    ∀ (n : Nat) (l : List SROFiling), l.length ≤ n →
      deduplicate_filings l = keepFirstByUrl l := by
  intro n
  induction n with
  | zero =>
      intro l h
      have hl : l = [] := List.eq_nil_of_length_eq_zero (Nat.le_zero.mp h)
      subst hl
      simp [deduplicate_filings, dedupAux, keepFirstByUrl]
  | succ n ih =>
      intro l h
      match l with
      | [] => simp [deduplicate_filings, dedupAux, keepFirstByUrl]
      | f :: rest =>
          show dedupAux [] (f :: rest) = keepFirstByUrl (f :: rest)
          rw [dedupAux_cons_not_mem (List.not_mem_nil f.url)]
          rw [dedupAux_cons_filter f.url rest []]
          rw [keepFirstByUrl]
          have hlen : (rest.filter (fun g => !(g.url == f.url))).length ≤ n := by
            have h1 := List.length_filter_le (fun g => !(g.url == f.url)) rest
            have h2 : rest.length ≤ n := by
              have := h
              simp only [List.length_cons] at this
              omega
            omega
          exact congrArg (f :: ·) (ih _ hlen)

/-- C2: `deduplicate_filings` computes exactly the specification subsequence
(first occurrence of each distinct `url`, in original order — a sublist of
the input, so only `url` participates in the identity test), is idempotent,
and never lengthens its input. -/
theorem C2_dedup_first_occurrence (l : List SROFiling) :
    deduplicate_filings l = keepFirstByUrl l ∧
    deduplicate_filings (deduplicate_filings l) = deduplicate_filings l ∧
    (deduplicate_filings l).length ≤ l.length ∧
    (deduplicate_filings l).Sublist l := by
  refine ⟨dedup_eq_keepFirst_bounded l.length l (Nat.le_refl _),
          dedupAux_idem l [], ?_, dedupAux_sublist l []⟩
  exact (dedupAux_sublist l []).length_le

/-! ## C3: `id` is a function of `url` alone -/

theorem md5Bytes_length (m : List Nat) : (md5Bytes m).length = 16 := by
  simp [md5Bytes, wordBytesLE]

theorem flatMap_byteHex_length (l : List Nat) :
    (l.flatMap byteHex).length = 2 * l.length := by
  induction l with
  | nil => rfl
  | cons a l ih =>
      simp only [List.flatMap_cons, List.length_append, ih, List.length_cons]
      simp [byteHex]
      omega

theorem md5HexChars_length (s : String) : (md5HexChars s).length = 32 := by
  unfold md5HexChars
  rw [flatMap_byteHex_length, md5Bytes_length]

/-- C3: the derived `id` is a deterministic function of `url` alone — two
filings with equal URLs have equal ids whatever their other fields — and it
is a fixed-length (12-character) truncation of the hash digest. -/
theorem C3_id_function_of_url (f g : SROFiling) (h : f.url = g.url) :
    f.id = g.id ∧ f.id.length = 12 := by
  constructor
  · unfold SROFiling.id
    rw [h]
  · show ((md5HexChars f.url).take 12).length = 12
    rw [List.length_take, md5HexChars_length]
    rfl

theorem C3_id_function_of_url_witness :
    SROFiling.id ⟨"title one", "https://www.sec.gov/files/a.pdf", "Dec 01, 2025",
        "desc one", "finra"⟩ =
      SROFiling.id ⟨"title two", "https://www.sec.gov/files/a.pdf", "Jan 02, 2026",
        "desc two", "national-securities-exchanges"⟩ ∧
    (SROFiling.id ⟨"title one", "https://www.sec.gov/files/a.pdf", "Dec 01, 2025",
        "desc one", "finra"⟩).length = 12 :=
  C3_id_function_of_url _ _ rfl

/-! ## C8: link resolution -/

/-- C8: a relative href gets the fixed base origin prepended, an href that
already starts with `"http"` passes through unchanged. -/
theorem C8_link_resolution :
    resolveHref "/foo/bar.pdf" = SEC_BASE_URL ++ "/foo/bar.pdf" ∧
    (∀ href : String, pyStartsWith href "http" = true → resolveHref href = href) ∧
    (∀ href : String, pyStartsWith href "http" = false →
      resolveHref href = SEC_BASE_URL ++ href) := by
  refine ⟨by decide, ?_, ?_⟩
  · intro href h
    unfold resolveHref
    rw [h]
    rfl
  · intro href h
    unfold resolveHref
    rw [h]
    rfl

theorem C8_link_resolution_witness :
    (pyStartsWith "https://www.sec.gov/x.pdf" "http" = true ∧
      resolveHref "https://www.sec.gov/x.pdf" = "https://www.sec.gov/x.pdf") ∧
    (pyStartsWith "/files/y.pdf" "http" = false ∧
      resolveHref "/files/y.pdf" = SEC_BASE_URL ++ "/files/y.pdf") :=
  ⟨⟨by decide, C8_link_resolution.2.1 _ (by decide)⟩,
   ⟨by decide, C8_link_resolution.2.2 _ (by decide)⟩⟩

/-! ## C5: normalization invariants -/

theorem resolveHref_ne_empty (href : String) : resolveHref href ≠ "" := by
  unfold resolveHref
  split
  · rename_i h
    intro he
    rw [he] at h
    exact absurd h (by decide)
  · intro he
    have hd : (SEC_BASE_URL ++ href).data = "".data := congrArg String.data he
    rw [String.data_append] at hd
    exact absurd (List.append_eq_nil.mp hd).1 (by decide)

theorem parseRow_url_ne (source : String) (r : Row) (f : SROFiling)
    (h : parseRow source r = some f) : f.url ≠ "" := by
  unfold parseRow at h
  split at h
  · split at h
    · exact absurd h (by simp)
    · cases Option.some.inj h
      exact resolveHref_ne_empty _
  · exact absurd h (by simp)

/-- C5: normalization keeps a row exactly when it has at least five cells
and an `a[href]` anchor in the first cell (no condition on the details
text), and every produced filing has a non-empty `url`. -/
theorem C5_normalization_invariants (source : String) (rows : List Row) :
    (∀ f ∈ parse_sro_page rows source, f.url ≠ "") ∧
    (∀ r : Row,
      (parseRow source r).isSome = (decide (5 ≤ r.cells.length) && rowHasLink r)) := by
  constructor
  · intro f hf
    rw [parse_sro_page, List.mem_filterMap] at hf
    obtain ⟨r, _, hr⟩ := hf
    exact parseRow_url_ne source r f hr
  · intro r
    rcases r with ⟨cells⟩
    match cells with
    | [] => rfl
    | [_] => rfl
    | [_, _] => rfl
    | [_, _, _] => rfl
    | [_, _, _, _] => rfl
    | c0 :: c1 :: c2 :: c3 :: c4 :: rest =>
        have h5 : decide (5 ≤ (Row.mk (c0 :: c1 :: c2 :: c3 :: c4 :: rest)).cells.length) = true := by
          simp [List.length_cons]
        rw [h5, Bool.true_and]
        cases hc : c0.anchor with
        | none => simp [parseRow, rowHasLink, hc]
        | some link => simp [parseRow, rowHasLink, hc]

theorem C5_normalization_invariants_witness :
    ⟨"[34-100001] ", "https://www.sec.gov/files/a.pdf", "Dec 01, 2025",
        "NYSE | SR-NYSE-2025-001 | ", "finra"⟩ ∈
      parse_sro_page [mkRow5 "34-100001" "/files/a.pdf" "Dec 01, 2025"
        "SR-NYSE-2025-001" "NYSE" [] []] "finra" ∧
    (⟨"[34-100001] ", "https://www.sec.gov/files/a.pdf", "Dec 01, 2025",
        "NYSE | SR-NYSE-2025-001 | ", "finra"⟩ : SROFiling).url ≠ "" :=
  ⟨by decide,
   (C5_normalization_invariants "finra"
      [mkRow5 "34-100001" "/files/a.pdf" "Dec 01, 2025" "SR-NYSE-2025-001" "NYSE" [] []]).1
     _ (by decide)⟩

/-! ## C7: title and description composition -/

theorem pyTake_of_le {s : String} {n : Nat} (h : s.length ≤ n) :
    pyTake s n = s := by
  unfold pyTake
  rw [List.take_of_length_le h]

/-- C7: for a normalized row, the title is the bracketed release identifier
followed by the first 200 characters of the details text, with `"..."`
appended exactly when the details text is longer than 200 characters, and
the description joins organization, file number and details text with
`" | "`; when the details text is at most 200 characters long the title
carries it whole, with no ellipsis. -/
theorem C7_title_description (source atext ahref dateS fileno org : String)
    (children : List CellChild) (rest : List Cell) :
    parseRow source (mkRow5 atext ahref dateS fileno org children rest) =
      some { title := "[" ++ pyStrip (pyReplace atext "External." "") ++ "] " ++
               pyTake (pyStrip (detailsText children)) 200 ++
               (if 200 < (pyStrip (detailsText children)).length then "..." else ""),
             url := resolveHref ahref,
             date := dateS,
             description := org ++ " | " ++ fileno ++ " | " ++ pyStrip (detailsText children),
             source := source } ∧
    ((pyStrip (detailsText children)).length ≤ 200 →
      "[" ++ pyStrip (pyReplace atext "External." "") ++ "] " ++
          pyTake (pyStrip (detailsText children)) 200 ++
          (if 200 < (pyStrip (detailsText children)).length then "..." else "") =
        "[" ++ pyStrip (pyReplace atext "External." "") ++ "] " ++
          pyStrip (detailsText children)) := by
  constructor
  · rfl
  · intro h
    rw [if_neg (by omega), pyTake_of_le h, String.append_empty]

theorem C7_title_description_witness :
    parseRow "finra"
        (mkRow5 "External.34-100002" "/files/b.pdf" "Dec 02, 2025" "SR-FINRA-2025-002"
          "FINRA" [CellChild.textNode "Short details."] []) =
      some { title := "[34-100002] Short details.",
             url := "https://www.sec.gov/files/b.pdf",
             date := "Dec 02, 2025",
             description := "FINRA | SR-FINRA-2025-002 | Short details.",
             source := "finra" } ∧
    (pyStrip (detailsText [CellChild.textNode "Short details."])).length ≤ 200 := by
  constructor
  · rw [(C7_title_description "finra" "External.34-100002" "/files/b.pdf" "Dec 02, 2025"
        "SR-FINRA-2025-002" "FINRA" [CellChild.textNode "Short details."] []).1,
        (C7_title_description "finra" "External.34-100002" "/files/b.pdf" "Dec 02, 2025"
        "SR-FINRA-2025-002" "FINRA" [CellChild.textNode "Short details."] []).2 (by decide)]
    decide
  · decide

/-! ## C6: date parsing at emission time -/

/-- C6: the date string is parsed by the ordered candidate formats, first
success winning: `"Dec 18, 2025"` fails the full-month format but succeeds
on the abbreviated one, so the entry gets published/updated timestamps;
a date matching no format leaves both timestamps unset, the entry total
(no exception) and still emitted. -/
theorem C6_date_parsing (f1 f2 : SROFiling)
    (h1 : f1.date = "Dec 18, 2025") (h2 : f2.date = "invalid") :
    parseFilingDate "Dec 18, 2025" = some ⟨2025, 12, 18⟩ ∧
    strptime "%B %d, %Y" "Dec 18, 2025" = none ∧
    strptime "%b %d, %Y" "Dec 18, 2025" = some ⟨2025, 12, 18⟩ ∧
    (makeEntry f1).published = some ⟨2025, 12, 18⟩ ∧
    (makeEntry f1).updated = some ⟨2025, 12, 18⟩ ∧
    (makeEntry f2).published = none ∧
    (makeEntry f2).updated = none ∧
    feedEntries [f1, f2] = [makeEntry f1, makeEntry f2] := by
  refine ⟨by decide, by decide, by decide, ?_, ?_, ?_, ?_, rfl⟩
  · show (if f1.date ≠ "" then parseFilingDate f1.date else none) = _
    rw [h1, if_pos (by decide)]
    decide
  · show (if f1.date ≠ "" then parseFilingDate f1.date else none) = _
    rw [h1, if_pos (by decide)]
    decide
  · show (if f2.date ≠ "" then parseFilingDate f2.date else none) = _
    rw [h2, if_pos (by decide)]
    decide
  · show (if f2.date ≠ "" then parseFilingDate f2.date else none) = _
    rw [h2, if_pos (by decide)]
    decide

theorem C6_date_parsing_witness :
    parseFilingDate "Dec 18, 2025" = some ⟨2025, 12, 18⟩ ∧
    strptime "%B %d, %Y" "Dec 18, 2025" = none ∧
    strptime "%b %d, %Y" "Dec 18, 2025" = some ⟨2025, 12, 18⟩ ∧
    (makeEntry ⟨"A", "u1", "Dec 18, 2025", "", "finra"⟩).published = some ⟨2025, 12, 18⟩ ∧
    (makeEntry ⟨"A", "u1", "Dec 18, 2025", "", "finra"⟩).updated = some ⟨2025, 12, 18⟩ ∧
    (makeEntry ⟨"B", "u2", "invalid", "", "finra"⟩).published = none ∧
    (makeEntry ⟨"B", "u2", "invalid", "", "finra"⟩).updated = none ∧
    feedEntries [⟨"A", "u1", "Dec 18, 2025", "", "finra"⟩,
                 ⟨"B", "u2", "invalid", "", "finra"⟩] =
      [makeEntry ⟨"A", "u1", "Dec 18, 2025", "", "finra"⟩,
       makeEntry ⟨"B", "u2", "invalid", "", "finra"⟩] :=
  C6_date_parsing _ _ rfl rfl

/-! ## C9: end-to-end snapshot count -/

/-- C9: the snapshot's `count` always equals the length of its `filings`
array, which is the length of the deduplicated-then-filtered sequence; on
the ten-record fixture (one duplicate URL, three excluded post-dedup
records, the duplicate itself not excluded) the count is `10 - 1 - 3 = 6`. -/
theorem C9_snapshot_count (updated : String) (raw : List SROFiling) :
    (snapshotOf updated (processFilings raw)).count =
      (snapshotOf updated (processFilings raw)).filings.length ∧
    (snapshotOf updated (processFilings raw)).count = (processFilings raw).length ∧
    scenarioRaw.length = 10 ∧
    (deduplicate_filings scenarioRaw).length = 9 ∧
    ((deduplicate_filings scenarioRaw).filter
        (fun f => should_exclude f.title f.description)).length = 3 ∧
    should_exclude (scenarioRaw.getD 9 default).title
      (scenarioRaw.getD 9 default).description = false ∧
    (snapshotOf updated (processFilings scenarioRaw)).count = 6 ∧
    (snapshotOf updated (processFilings scenarioRaw)).filings.length = 6 := by
  refine ⟨rfl, ?_, by decide, by decide, by decide, by decide, ?_, ?_⟩
  · show (List.map filingRecord (processFilings raw)).length = (processFilings raw).length
    exact List.length_map _ _
  · show (List.map filingRecord (processFilings scenarioRaw)).length = 6
    rw [List.length_map]
    decide
  · show (List.map filingRecord (processFilings scenarioRaw)).length = 6
    rw [List.length_map]
    decide

/-! ## C10: feed-entry description fallback -/

/-- C10: when source, date and description are all empty the emitted
entry's description falls back to the filing's title; otherwise it is the
newline-join of the present parts (source label, date line, description),
in that order. -/
theorem C10_description_fallback (f : SROFiling) :
    ((f.source = "" ∧ f.date = "" ∧ f.description = "") →
      (makeEntry f).description = f.title) ∧
    (¬(f.source = "" ∧ f.date = "" ∧ f.description = "") →
      (makeEntry f).description = String.intercalate "\n" (descParts f)) := by
  constructor
  · rintro ⟨hs, hd, hdesc⟩
    show (if descParts f ≠ [] then String.intercalate "\n" (descParts f) else f.title) = _
    rw [if_neg (by simp [descParts, hs, hd, hdesc])]
  · intro h
    show (if descParts f ≠ [] then String.intercalate "\n" (descParts f) else f.title) = _
    rw [if_pos ?_]
    by_cases hs : f.source = ""
    · by_cases hd : f.date = ""
      · have hdesc : f.description ≠ "" := by tauto
        simp [descParts, hs, hd, hdesc]
      · simp [descParts, hd]
    · simp [descParts, hs]

theorem C10_description_fallback_witness :
    (makeEntry ⟨"Only title", "u", "", "", ""⟩).description = "Only title" ∧
    (makeEntry ⟨"T", "u", "Dec 01, 2025", "some description", "finra"⟩).description =
      String.intercalate "\n"
        (descParts ⟨"T", "u", "Dec 01, 2025", "some description", "finra"⟩) :=
  ⟨(C10_description_fallback _).1 ⟨rfl, rfl, rfl⟩,
   (C10_description_fallback _).2 (by decide)⟩

/-! ## C4 -/

/-- C4: topic patterns are word-boundary anchored and case-insensitive:
the `token` pattern never fires inside `tokenizer` (prepending
`"tokenizer "` to any input changes nothing for it), `"new token listing"`
is excluded in any capitalization, and every pattern gives the same answer
on lower-cased input. -/
theorem C4_word_boundaries :
    (∀ ds : List Nat,
      reSearch (wordPat "token") (codes "tokenizer " ++ ds) =
        reSearch (wordPat "token") (codes " " ++ ds)) ∧
    should_exclude "Amendment concerning the tokenizer" "" = false ∧
    should_exclude "A new token listing" "" = true ∧
    should_exclude "A NEW TOKEN LISTING" "" = true ∧
    (∀ (p : List PatTok) (s : List Nat), reSearch p (pyLowerCodes s) = reSearch p s) := by
  refine ⟨fun ds => rfl, by decide, by decide, by decide, reSearch_lowerCodes⟩
